import Mathlib

/-!
Verification of the captra capability-enforcement and audit-trail engine
(src/src/manifest.rs, src/src/trace.rs, src/src/host.rs).

The Rust code is shallowly embedded: machine integers (u64) are Nat, with
reduction mod 2 ^ 64 written explicitly where the source uses wrapping
arithmetic; fallible operations return Except / Option; the mutable
HostState is threaded explicitly.

External crates are not re-implemented; they enter as an explicit record
of executable functions (structure Ext below): glob pattern compilation
and matching (crate glob), the first 64-bit draw of a seeded StdRng
(crate rand), SHA-256 (crate sha2), ed25519 signing (crate ed25519-dalek),
base64 encoding (crate base64), and serde_json string rendering. Every
theorem about the engine holds for an arbitrary such record, so it is a
statement about the engine's own control flow, independent of the exact
behaviour of those crates. Concrete instantiations used in witnesses and
counterexamples record documented facts about the crates (for example,
glob's Pattern::new fails on the pattern "[" and the pattern "*" matches
the path "x").
-/

namespace Captra

/-- FsCapability from src/src/manifest.rs. -/
structure FsCapability where
  read : Option (List String)
  write : Option (List String)
  deriving DecidableEq

/-- Capabilities from src/src/manifest.rs. -/
structure Capabilities where
  fs : Option FsCapability
  deriving DecidableEq

/-- CapabilityManifest from src/src/manifest.rs. -/
structure CapabilityManifest where
  plugin : String
  version : String
  capabilities : Capabilities
  issued_by : String
  deriving DecidableEq

/-- ManifestError validation variants from src/src/manifest.rs (the Io and
Deserialize variants concern file loading, which is outside validate). -/
inductive ManifestError where
  | invalidPlugin
  | invalidVersion
  | invalidIssuer
  | invalidGlob (idx : Nat) (pattern : String) (err : String)
  deriving DecidableEq

/-- EventType from src/src/trace.rs. -/
inductive EventType where
  | capCall
  | capError
  deriving DecidableEq

/-- CapEventSubtype from src/src/trace.rs. -/
inductive CapEventSubtype where
  | invalidPath
  | noFsCapability
  | noReadPatterns
  | globMismatch
  | invalidGlob
  deriving DecidableEq

/-- The From CapEventSubtype for EventType impl in src/src/trace.rs:
GlobMismatch maps to cap.call, everything else to cap.error. -/
def CapEventSubtype.toEventType : CapEventSubtype → EventType
  | .globMismatch => .capCall
  | _ => .capError

/-- The Display impl for CapEventSubtype in src/src/trace.rs. -/
def CapEventSubtype.display : CapEventSubtype → String
  | .invalidPath => "invalid_path"
  | .noFsCapability => "no_fs_capability"
  | .noReadPatterns => "no_read_patterns"
  | .globMismatch => "glob_mismatch"
  | .invalidGlob => "invalid_glob"

/-- TraceEvent from src/src/trace.rs. The u64 fields seq and ts_seed are
Nat. -/
structure TraceEvent where
  run_id : String
  seq : Nat
  event_type : EventType
  input : String
  outcome : Bool
  ts_seed : Nat
  deriving DecidableEq

/-- SignedTrace from src/src/trace.rs, after the constructor has base64
encoded the signature bytes. -/
structure SignedTrace where
  run_id : String
  manifest_hash : String
  trace_json : String
  signature : String
  deriving DecidableEq

/-- CapError from src/src/host.rs. -/
inductive CapError where
  | noFsCapability
  | noReadPatterns
  | globMismatch
  | invalidPath
  deriving DecidableEq

/-- External dependencies of the engine, one field per crate function used
by the embedded code. All fields are arbitrary: theorems quantify over
them. -/
structure Ext where
  /-- Whether glob's Pattern::new succeeds on this pattern text. -/
  compileOk : String → Bool
  /-- Whether the compiled glob pattern matches the path (consulted by the
  code only when compileOk is true). -/
  globMatches : String → String → Bool
  /-- Text of the PatternError produced when compilation fails. -/
  errMsg : String → String
  /-- First u64 drawn from StdRng seeded with seed_from_u64 of the given
  value (values above 2 ^ 64 never reach this field). -/
  rngFirst : Nat → Nat
  /-- Public key bytes derived from a signing key (keys are abstracted to
  Nat; verifying_key().to_bytes() in the source). -/
  verifyingKey : Nat → Nat
  /-- The serde_json::to_string rendering of a manifest. -/
  manifestJson : CapabilityManifest → String
  /-- SHA-256 digest (32 bytes, as Nat values below 256) of the UTF-8
  encoding of a string. -/
  sha256str : String → List Nat
  /-- ed25519 signature bytes of a message (key, message bytes). -/
  sign : Nat → List Nat → List Nat
  /-- base64 STANDARD encoding of a byte list. -/
  base64 : List Nat → String
  /-- The serde_json::to_string_pretty rendering of a trace, with the
  fallback to "[]" applied (finalize_trace in src/src/trace.rs). -/
  traceJson : List TraceEvent → String

/-- PRIME_MULTIPLIER from src/src/manifest.rs. -/
def PRIME_MULTIPLIER : Nat := 314159

/-- Modulus of u64 arithmetic. -/
def U64MOD : Nat := 2 ^ 64

/-- The RNG seed mixed from engine seed and sequence number:
seed.wrapping_mul(PRIME_MULTIPLIER + seq) in src/src/host.rs lines 126 and
209 (the addition cannot overflow for reachable seq values; the mod keeps
the embedding total). -/
def mixSeed (seed seq : Nat) : Nat :=
  seed * ((PRIME_MULTIPLIER + seq) % U64MOD) % U64MOD

/-- The deterministic pseudo-timestamp: the first draw of
StdRng::seed_from_u64(mixSeed seed seq), as in src/src/host.rs lines
126-127 and 209-210. -/
def tsSeed (ext : Ext) (seed seq : Nat) : Nat :=
  ext.rngFirst (mixSeed seed seq)

/-- Lower-case hex digit, as produced by Rust's LowerHex formatting. -/
def hexDigit (n : Nat) : Char :=
  if n < 10 then Char.ofNat (48 + n) else Char.ofNat (87 + n)

/-- Two-digit lower-case hex rendering of one byte, as format "{:x}" on a
sha2 digest renders each byte. -/
def byteHex (b : Nat) : List Char :=
  [hexDigit (b / 16 % 16), hexDigit (b % 16)]

/-- Lower-case hex string of a byte list: the format "{:x}" rendering of a
sha2 digest in src/src/host.rs lines 55 and 179. -/
def hexLower (bs : List Nat) : String :=
  String.mk ((bs.map byteHex).flatten)

/-- UTF-8 bytes of an ASCII string (str::as_bytes in the source; applied
only to hex strings, which are ASCII, so the code-point values are the
byte values). -/
def asciiBytes (s : String) : List Nat :=
  s.data.map Char.toNat

/-- HostState from src/src/host.rs. The signing key is abstracted to Nat;
the engine never reads it except in sign_current_trace. -/
structure HostState where
  manifest : CapabilityManifest
  trace : List TraceEvent
  seed : Nat
  keypair : Nat
  pubkey : Nat
  run_id : String
  manifest_hash : String

/-- HostState::new from src/src/host.rs lines 49-66: derives the public
key from the keypair, run_id from the seed, and manifest_hash as the hex
SHA-256 of the serde_json rendering of the manifest. -/
def HostState.new (ext : Ext) (manifest : CapabilityManifest) (seed : Nat)
    (keypair : Nat) : HostState :=
  { manifest := manifest
    trace := []
    seed := seed
    keypair := keypair
    pubkey := ext.verifyingKey keypair
    run_id := "captra-run-" ++ toString seed
    manifest_hash := hexLower (ext.sha256str (ext.manifestJson manifest)) }

/-- The trace event pushed by HostState::log_cap_error (src/src/host.rs
lines 207-231): seq is the current trace length plus one, ts_seed is drawn
from the mixed seed, the input is the subtype display text, a colon-space,
and the reason. -/
def mkCapErrorEvent (ext : Ext) (st : HostState) (sub : CapEventSubtype)
    (reason : String) : TraceEvent :=
  { run_id := st.run_id
    seq := st.trace.length + 1
    event_type := sub.toEventType
    input := sub.display ++ ": " ++ reason
    outcome := false
    ts_seed := tsSeed ext st.seed (st.trace.length + 1) }

/-- HostState::log_cap_error from src/src/host.rs lines 207-231. The
path_str argument of the source only feeds the tracing log record, not the
pushed event, so it is omitted here. -/
def logCapError (ext : Ext) (st : HostState) (sub : CapEventSubtype)
    (reason : String) : HostState :=
  { st with trace := st.trace ++ [mkCapErrorEvent ext st sub reason] }

/-- The read_patterns.iter().any(..) loop of execute_plugin
(src/src/host.rs lines 129-137): patterns are tried in declaration order;
a pattern that fails to compile triggers log_cap_error with subtype
invalid_glob and the pattern text as reason and counts as non-matching;
the first compiling pattern that matches stops the iteration. -/
def evalPatterns (ext : Ext) (pathStr : String) :
    HostState → List String → HostState × Bool
  | st, [] => (st, false)
  | st, p :: rest =>
    if ext.compileOk p then
      if ext.globMatches p pathStr then (st, true)
      else evalPatterns ext pathStr st rest
    else
      evalPatterns ext pathStr (logCapError ext st .invalidGlob p) rest

/-- HostState::execute_plugin from src/src/host.rs lines 94-167, acting on
the lossy string form of the path (to_string_lossy is applied by the
source before any check, and never fails). Note the source captures seq
and ts_seed before the pattern loop, while log_cap_error recomputes them
from the current trace length. -/
def executePlugin (ext : Ext) (st : HostState) (pathStr : String) :
    HostState × Except CapError Bool :=
  if pathStr = "" then (st, .error .invalidPath)
  else
    match st.manifest.capabilities.fs with
    | none =>
      (logCapError ext st .noFsCapability "missing fs cap",
        .error .noFsCapability)
    | some fsCap =>
      match fsCap.read with
      | none =>
        (logCapError ext st .noReadPatterns "empty read patterns",
          .error .noReadPatterns)
      | some v =>
        if v.isEmpty then
          (logCapError ext st .noReadPatterns "empty read patterns",
            .error .noReadPatterns)
        else
          let seq := st.trace.length + 1
          let ts := tsSeed ext st.seed seq
          let res := evalPatterns ext pathStr st v
          if res.2 then
            ({ res.1 with
                trace := res.1.trace ++
                  [{ run_id := res.1.run_id
                     seq := seq
                     event_type := .capCall
                     input := pathStr
                     outcome := res.2
                     ts_seed := ts }] },
              .ok true)
          else
            (logCapError ext res.1 .globMismatch "no matching pattern",
              .error .globMismatch)

/-- A sequence of execute_plugin calls, threading the engine state. -/
def runCalls (ext : Ext) (st : HostState) : List String → HostState
  | [] => st
  | p :: rest => runCalls ext (executePlugin ext st p).1 rest

/-- HostState::sign_current_trace from src/src/host.rs lines 175-189:
render the trace, hash it, render the digest as lower-case hex, sign the
bytes of that hex string, and package the base64 of the signature. -/
def signCurrentTrace (ext : Ext) (st : HostState) : SignedTrace :=
  let trace_json := ext.traceJson st.trace
  let trace_hash := hexLower (ext.sha256str trace_json)
  let signature := ext.sign st.keypair (asciiBytes trace_hash)
  { run_id := st.run_id
    manifest_hash := st.manifest_hash
    trace_json := trace_json
    signature := ext.base64 signature }

/-- The glob-compilation loop of CapabilityManifest::validate
(src/src/manifest.rs lines 80-86), carrying the index offset. -/
def validateGlobs (ext : Ext) : List String → Nat → Except ManifestError Unit
  | [], _ => .ok ()
  | p :: rest, idx =>
    if ext.compileOk p then validateGlobs ext rest (idx + 1)
    else .error (.invalidGlob idx p (ext.errMsg p))

/-- CapabilityManifest::validate from src/src/manifest.rs lines 67-89. -/
def CapabilityManifest.validate (ext : Ext) (m : CapabilityManifest) :
    Except ManifestError Unit :=
  if m.plugin = "" then .error .invalidPlugin
  else if m.version = "" then .error .invalidVersion
  else if m.issued_by = "" then .error .invalidIssuer
  else
    match m.capabilities.fs with
    | some fsCap =>
      match fsCap.read with
      | some pats => validateGlobs ext pats 0
      | none => .ok ()
    | none => .ok ()

/-- The declared read patterns of a manifest, empty when the fs capability
or the read field is absent. -/
def declaredReadPatterns (m : CapabilityManifest) : List String :=
  ((m.capabilities.fs).bind FsCapability.read).getD []

/-!
JSON document model for the trace persistence round trip. save_trace
writes serde_json::to_string_pretty of the event list and load_trace
parses it back (src/src/trace.rs lines 79-94); serde_json's text renderer
and parser are mutually inverse on rendered documents, so the file layer
is modelled at the level of the JSON document tree: saving produces the
tree the derived Serialize impl builds, loading decodes a tree exactly as
the derived Deserialize impl does (fields looked up by name, missing or
mistyped fields fail, u64 fields are numbers, enum variants are
snake_case strings per the serde rename_all attribute).
-/

/-- JSON values, as far as the trace file format needs them: the u64
fields are non-negative integers. -/
inductive JValue where
  | str : String → JValue
  | num : Nat → JValue
  | bool : Bool → JValue
  | arr : List JValue → JValue
  | obj : List (String × JValue) → JValue

/-- The serde serialization of EventType under rename_all snake_case. -/
def EventType.toJsonStr : EventType → String
  | .capCall => "cap_call"
  | .capError => "cap_error"

/-- The serde deserialization of EventType under rename_all snake_case. -/
def eventTypeFromJsonStr : String → Option EventType :=
  fun s =>
    if s = "cap_call" then some .capCall
    else if s = "cap_error" then some .capError
    else none

/-- First field with the given name in a JSON object. -/
def lookupField : List (String × JValue) → String → Option JValue
  | [], _ => none
  | (k, v) :: rest, key => if k = key then some v else lookupField rest key

/-- The JSON object the derived Serialize impl for TraceEvent builds. -/
def traceEventToJson (e : TraceEvent) : JValue :=
  .obj [("run_id", .str e.run_id),
        ("seq", .num e.seq),
        ("event_type", .str e.event_type.toJsonStr),
        ("input", .str e.input),
        ("outcome", .bool e.outcome),
        ("ts_seed", .num e.ts_seed)]

/-- The derived Deserialize impl for TraceEvent: every field must be
present with the right type, the event_type string must name a variant. -/
def traceEventFromJson (j : JValue) : Option TraceEvent :=
  match j with
  | .obj fields =>
    match lookupField fields "run_id", lookupField fields "seq",
        lookupField fields "event_type", lookupField fields "input",
        lookupField fields "outcome", lookupField fields "ts_seed" with
    | some (.str rid), some (.num sq), some (.str et), some (.str inp),
        some (.bool oc), some (.num ts) =>
      match eventTypeFromJsonStr et with
      | some ety =>
        some { run_id := rid, seq := sq, event_type := ety, input := inp,
               outcome := oc, ts_seed := ts }
      | none => none
    | _, _, _, _, _, _ => none
  | _ => none

/-- Vec deserialization: decode every element, failing on the first
element that fails. -/
def decodeEvents : List JValue → Option (List TraceEvent)
  | [] => some []
  | j :: rest =>
    match traceEventFromJson j, decodeEvents rest with
    | some e, some es => some (e :: es)
    | _, _ => none

/-- The JSON document save_trace writes (HostState::save_current_trace
delegates to it with the engine's trace). -/
def saveTraceDoc (trace : List TraceEvent) : JValue :=
  .arr (trace.map traceEventToJson)

/-- The event list load_trace decodes from a JSON document. -/
def loadTraceDoc (doc : JValue) : Option (List TraceEvent) :=
  match doc with
  | .arr js => decodeEvents js
  | _ => none

/-- Projection of a trace event to the fields C4 and C6 reason about. -/
def projEvent (e : TraceEvent) : EventType × String × Bool :=
  (e.event_type, e.input, e.outcome)

/-- Expected projection of the cap.error event logged for a pattern that
fails to compile. -/
def invalidGlobProj (p : String) : EventType × String × Bool :=
  (.capError, "invalid_glob: " ++ p, false)

@[simp]
theorem logCapError_manifest (ext : Ext) (st : HostState)
    (sub : CapEventSubtype) (r : String) :
    (logCapError ext st sub r).manifest = st.manifest := rfl

@[simp]
theorem logCapError_seed (ext : Ext) (st : HostState)
    (sub : CapEventSubtype) (r : String) :
    (logCapError ext st sub r).seed = st.seed := rfl

@[simp]
theorem logCapError_run_id (ext : Ext) (st : HostState)
    (sub : CapEventSubtype) (r : String) :
    (logCapError ext st sub r).run_id = st.run_id := rfl

@[simp]
theorem logCapError_keypair (ext : Ext) (st : HostState)
    (sub : CapEventSubtype) (r : String) :
    (logCapError ext st sub r).keypair = st.keypair := rfl

@[simp]
theorem logCapError_trace (ext : Ext) (st : HostState)
    (sub : CapEventSubtype) (r : String) :
    (logCapError ext st sub r).trace =
      st.trace ++ [mkCapErrorEvent ext st sub r] := rfl

/-- The pattern loop only appends cap.error events for patterns that fail
to compile; every appended event has outcome false, the run id of the
engine, and a ts_seed derived from the engine seed and its own seq. All
other state fields are untouched. -/
theorem evalPatterns_state (ext : Ext) (pathStr : String) :
    ∀ (pats : List String) (st : HostState),
      (evalPatterns ext pathStr st pats).1.manifest = st.manifest ∧
      (evalPatterns ext pathStr st pats).1.seed = st.seed ∧
      (evalPatterns ext pathStr st pats).1.run_id = st.run_id ∧
      (evalPatterns ext pathStr st pats).1.keypair = st.keypair ∧
      ∃ evs, (evalPatterns ext pathStr st pats).1.trace = st.trace ++ evs ∧
        ∀ e ∈ evs, e.event_type = .capError ∧ e.outcome = false ∧
          e.run_id = st.run_id ∧ e.ts_seed = tsSeed ext st.seed e.seq := by
  intro pats
  induction pats with
  | nil =>
    intro st
    refine ⟨rfl, rfl, rfl, rfl, [], by simp [evalPatterns], by simp⟩
  | cons p rest ih =>
    intro st
    by_cases hc : ext.compileOk p
    · by_cases hm : ext.globMatches p pathStr
      · refine ⟨?_, ?_, ?_, ?_, [], ?_, by simp⟩ <;>
          simp [evalPatterns, hc, hm]
      · simpa [evalPatterns, hc, hm] using ih st
    · obtain ⟨h1, h2, h3, h4, evs, htr, hev⟩ :=
        ih (logCapError ext st .invalidGlob p)
      refine ⟨?_, ?_, ?_, ?_,
        mkCapErrorEvent ext st .invalidGlob p :: evs, ?_, ?_⟩
      · simpa [evalPatterns, hc] using h1
      · simpa [evalPatterns, hc] using h2
      · simpa [evalPatterns, hc] using h3
      · simpa [evalPatterns, hc] using h4
      · simp only [evalPatterns, hc, if_neg, Bool.false_eq_true,
          ite_false] at htr ⊢
        simp at htr
        simp [htr]
      · intro e he
        rcases List.mem_cons.mp he with rfl | he
        · exact ⟨rfl, rfl, rfl, rfl⟩
        · simpa using hev e he

/-- When every pattern compiles, the loop appends nothing. -/
theorem evalPatterns_allOk (ext : Ext) (pathStr : String) :
    ∀ (pats : List String) (st : HostState),
      (∀ p ∈ pats, ext.compileOk p = true) →
      (evalPatterns ext pathStr st pats).1 = st := by
  intro pats
  induction pats with
  | nil => intro st _; rfl
  | cons p rest ih =>
    intro st h
    have hc : ext.compileOk p = true := h p (List.mem_cons_self p rest)
    by_cases hm : ext.globMatches p pathStr
    · simp [evalPatterns, hc, hm]
    · simpa [evalPatterns, hc, hm] using
        ih st (fun q hq => h q (List.mem_cons_of_mem p hq))

/-- When no compiling pattern matches, the loop returns false and appends
exactly one cap.error invalid_glob event, carrying the offending pattern
text, for each pattern that fails to compile, in declaration order. -/
theorem evalPatterns_nomatch (ext : Ext) (pathStr : String) :
    ∀ (pats : List String) (st : HostState),
      (∀ p ∈ pats, ext.compileOk p = true →
        ext.globMatches p pathStr = false) →
      (evalPatterns ext pathStr st pats).2 = false ∧
      ∃ evs, (evalPatterns ext pathStr st pats).1.trace = st.trace ++ evs ∧
        evs.map projEvent =
          (pats.filter fun p => !ext.compileOk p).map invalidGlobProj := by
  intro pats
  induction pats with
  | nil => intro st _; exact ⟨rfl, [], by simp [evalPatterns], by simp⟩
  | cons p rest ih =>
    intro st h
    have hp := h p (List.mem_cons_self p rest)
    have hrest : ∀ q ∈ rest, ext.compileOk q = true →
        ext.globMatches q pathStr = false :=
      fun q hq => h q (List.mem_cons_of_mem p hq)
    by_cases hc : ext.compileOk p
    · have hm := hp hc
      obtain ⟨hb, evs, htr, hmap⟩ := ih st hrest
      refine ⟨?_, evs, ?_, ?_⟩
      · simpa [evalPatterns, hc, hm] using hb
      · simpa [evalPatterns, hc, hm] using htr
      · simpa [hc] using hmap
    · obtain ⟨hb, evs, htr, hmap⟩ := ih (logCapError ext st .invalidGlob p) hrest
      have hc' : ext.compileOk p = false := by
        simpa using hc
      refine ⟨?_, mkCapErrorEvent ext st .invalidGlob p :: evs, ?_, ?_⟩
      · simpa [evalPatterns, hc'] using hb
      · have : (evalPatterns ext pathStr
            (logCapError ext st .invalidGlob p) rest).1.trace =
            st.trace ++ (mkCapErrorEvent ext st .invalidGlob p :: evs) := by
          simpa using htr
        simpa [evalPatterns, hc'] using this
      · simp [hc', hmap]
        rfl

/-- When a compiling, matching pattern follows a (possibly empty) block of
patterns none of which both compiles and matches, the loop returns true,
appends exactly the invalid_glob events of the preceding block, and never
inspects the remaining patterns. -/
theorem evalPatterns_match (ext : Ext) (pathStr : String) :
    ∀ (pre : List String) (st : HostState) (p : String) (post : List String),
      (∀ q ∈ pre, ext.compileOk q = true →
        ext.globMatches q pathStr = false) →
      ext.compileOk p = true → ext.globMatches p pathStr = true →
      (evalPatterns ext pathStr st (pre ++ p :: post)).2 = true ∧
      ∃ evs,
        (evalPatterns ext pathStr st (pre ++ p :: post)).1.trace =
          st.trace ++ evs ∧
        evs.map projEvent =
          (pre.filter fun q => !ext.compileOk q).map invalidGlobProj := by
  intro pre
  induction pre with
  | nil =>
    intro st p post _ hcp hmp
    exact ⟨by simp [evalPatterns, hcp, hmp], [], by simp [evalPatterns, hcp, hmp],
      by simp⟩
  | cons q pre' ih =>
    intro st p post h hcp hmp
    have hq := h q (List.mem_cons_self q pre')
    have hpre' : ∀ r ∈ pre', ext.compileOk r = true →
        ext.globMatches r pathStr = false :=
      fun r hr => h r (List.mem_cons_of_mem q hr)
    by_cases hc : ext.compileOk q
    · have hm := hq hc
      obtain ⟨hb, evs, htr, hmap⟩ := ih st p post hpre' hcp hmp
      refine ⟨?_, evs, ?_, ?_⟩
      · simpa [evalPatterns, hc, hm] using hb
      · simpa [evalPatterns, hc, hm] using htr
      · simpa [hc] using hmap
    · have hc' : ext.compileOk q = false := by simpa using hc
      obtain ⟨hb, evs, htr, hmap⟩ :=
        ih (logCapError ext st .invalidGlob q) p post hpre' hcp hmp
      refine ⟨?_, mkCapErrorEvent ext st .invalidGlob q :: evs, ?_, ?_⟩
      · simpa [evalPatterns, hc'] using hb
      · have : (evalPatterns ext pathStr
            (logCapError ext st .invalidGlob q) (pre' ++ p :: post)).1.trace =
            st.trace ++ (mkCapErrorEvent ext st .invalidGlob q :: evs) := by
          simpa using htr
        simpa [evalPatterns, hc'] using this
      · simp [hc', hmap]
        rfl

/-- One execute_plugin call only appends to the trace, and every appended
event carries the engine run id and a ts_seed that is the deterministic
function of the engine seed and the event's own seq field. -/
theorem executePlugin_state (ext : Ext) (st : HostState) (pathStr : String) :
    (executePlugin ext st pathStr).1.manifest = st.manifest ∧
    (executePlugin ext st pathStr).1.seed = st.seed ∧
    (executePlugin ext st pathStr).1.run_id = st.run_id ∧
    (executePlugin ext st pathStr).1.keypair = st.keypair ∧
    ∃ evs, (executePlugin ext st pathStr).1.trace = st.trace ++ evs ∧
      ∀ e ∈ evs, e.run_id = st.run_id ∧
        e.ts_seed = tsSeed ext st.seed e.seq := by
  by_cases hp : pathStr = ""
  · exact ⟨by simp [executePlugin, hp], by simp [executePlugin, hp],
      by simp [executePlugin, hp], by simp [executePlugin, hp],
      [], by simp [executePlugin, hp], by simp⟩
  · cases hfs : st.manifest.capabilities.fs with
    | none =>
      refine ⟨?_, ?_, ?_, ?_, [mkCapErrorEvent ext st .noFsCapability
        "missing fs cap"], ?_, ?_⟩ <;>
        simp [executePlugin, hp, hfs, mkCapErrorEvent]
    | some fsCap =>
      cases hr : fsCap.read with
      | none =>
        refine ⟨?_, ?_, ?_, ?_, [mkCapErrorEvent ext st .noReadPatterns
          "empty read patterns"], ?_, ?_⟩ <;>
          simp [executePlugin, hp, hfs, hr, mkCapErrorEvent]
      | some v =>
        by_cases hv : v.isEmpty
        · refine ⟨?_, ?_, ?_, ?_, [mkCapErrorEvent ext st .noReadPatterns
            "empty read patterns"], ?_, ?_⟩ <;>
            simp [executePlugin, hp, hfs, hr, hv, mkCapErrorEvent]
        · obtain ⟨h1, h2, h3, h4, evs0, htr0, hev0⟩ :=
            evalPatterns_state ext pathStr v st
          by_cases hres : (evalPatterns ext pathStr st v).2 = true
          · refine ⟨?_, ?_, ?_, ?_,
              evs0 ++ [{ run_id := (evalPatterns ext pathStr st v).1.run_id
                         seq := st.trace.length + 1
                         event_type := .capCall
                         input := pathStr
                         outcome := (evalPatterns ext pathStr st v).2
                         ts_seed := tsSeed ext st.seed (st.trace.length + 1) }],
              ?_, ?_⟩
            · simpa [executePlugin, hp, hfs, hr, hv, hres] using h1
            · simpa [executePlugin, hp, hfs, hr, hv, hres] using h2
            · simpa [executePlugin, hp, hfs, hr, hv, hres] using h3
            · simpa [executePlugin, hp, hfs, hr, hv, hres] using h4
            · simp [executePlugin, hp, hfs, hr, hv, hres, htr0]
            · intro e he
              rcases List.mem_append.mp he with he0 | hes
              · obtain ⟨_, hb, hrun, hts⟩ := hev0 e he0
                exact ⟨hrun, hts⟩
              · have : e = { run_id := (evalPatterns ext pathStr st v).1.run_id
                             seq := st.trace.length + 1
                             event_type := .capCall
                             input := pathStr
                             outcome := (evalPatterns ext pathStr st v).2
                             ts_seed := tsSeed ext st.seed
                               (st.trace.length + 1) } := by
                  simpa using hes
                subst this
                exact ⟨h3, rfl⟩
          · obtain ⟨_, _, _, _, evs0', htr0', hev0'⟩ :=
              evalPatterns_state ext pathStr v st
            refine ⟨?_, ?_, ?_, ?_,
              evs0' ++ [mkCapErrorEvent ext (evalPatterns ext pathStr st v).1
                .globMismatch "no matching pattern"], ?_, ?_⟩
            · simpa [executePlugin, hp, hfs, hr, hv, hres] using h1
            · simpa [executePlugin, hp, hfs, hr, hv, hres] using h2
            · simpa [executePlugin, hp, hfs, hr, hv, hres] using h3
            · simpa [executePlugin, hp, hfs, hr, hv, hres] using h4
            · simp [executePlugin, hp, hfs, hr, hv, hres, htr0']
            · intro e he
              rcases List.mem_append.mp he with he0 | hes
              · obtain ⟨_, hb, hrun, hts⟩ := hev0' e he0
                exact ⟨hrun, hts⟩
              · have he' : e = mkCapErrorEvent ext
                    (evalPatterns ext pathStr st v).1 .globMismatch
                    "no matching pattern" := by simpa using hes
                subst he'
                constructor
                · simp [mkCapErrorEvent, h3]
                · simp [mkCapErrorEvent, h2]

/-- Running any sequence of calls preserves the identity fields of the
engine and only appends to the trace. -/
theorem runCalls_state (ext : Ext) :
    ∀ (calls : List String) (st : HostState),
      (runCalls ext st calls).manifest = st.manifest ∧
      (runCalls ext st calls).seed = st.seed ∧
      (runCalls ext st calls).run_id = st.run_id ∧
      (runCalls ext st calls).keypair = st.keypair ∧
      ∃ evs, (runCalls ext st calls).trace = st.trace ++ evs ∧
        ∀ e ∈ evs, e.run_id = st.run_id ∧
          e.ts_seed = tsSeed ext st.seed e.seq := by
  intro calls
  induction calls with
  | nil => intro st; exact ⟨rfl, rfl, rfl, rfl, [], by simp [runCalls], by simp⟩
  | cons p rest ih =>
    intro st
    obtain ⟨e1, e2, e3, e4, evs1, htr1, hev1⟩ := executePlugin_state ext st p
    obtain ⟨r1, r2, r3, r4, evs2, htr2, hev2⟩ := ih (executePlugin ext st p).1
    refine ⟨?_, ?_, ?_, ?_, evs1 ++ evs2, ?_, ?_⟩
    · simpa [runCalls, e1] using r1
    · simpa [runCalls, e2] using r2
    · simpa [runCalls, e3] using r3
    · simpa [runCalls, e4] using r4
    · simp [runCalls] at htr2 ⊢
      rw [htr2, htr1, List.append_assoc]
    · intro e he
      rcases List.mem_append.mp he with h | h
      · exact hev1 e h
      · obtain ⟨ha, hb⟩ := hev2 e h
        exact ⟨by rw [ha, e3], by rw [hb, e2]⟩

/-- Equality of the key-independent engine fields: everything
execute_plugin reads or writes. -/
def agree (st1 st2 : HostState) : Prop :=
  st1.manifest = st2.manifest ∧ st1.trace = st2.trace ∧
    st1.seed = st2.seed ∧ st1.run_id = st2.run_id

theorem mkCapErrorEvent_agree (ext : Ext) {st1 st2 : HostState}
    (h : agree st1 st2) (sub : CapEventSubtype) (r : String) :
    mkCapErrorEvent ext st1 sub r = mkCapErrorEvent ext st2 sub r := by
  obtain ⟨_, htr, hs, hr⟩ := h
  simp [mkCapErrorEvent, htr, hs, hr]

theorem logCapError_agree (ext : Ext) {st1 st2 : HostState}
    (h : agree st1 st2) (sub : CapEventSubtype) (r : String) :
    agree (logCapError ext st1 sub r) (logCapError ext st2 sub r) := by
  obtain ⟨hm, htr, hs, hr⟩ := h
  exact ⟨hm, by simp [htr, mkCapErrorEvent_agree ext ⟨hm, htr, hs, hr⟩ sub r],
    hs, hr⟩

/-- The pattern loop never consults the signing key: states that agree on
the key-independent fields evolve identically. -/
theorem evalPatterns_agree (ext : Ext) (pathStr : String) :
    ∀ (pats : List String) {st1 st2 : HostState}, agree st1 st2 →
      agree (evalPatterns ext pathStr st1 pats).1
        (evalPatterns ext pathStr st2 pats).1 ∧
      (evalPatterns ext pathStr st1 pats).2 =
        (evalPatterns ext pathStr st2 pats).2 := by
  intro pats
  induction pats with
  | nil => intro st1 st2 h; exact ⟨h, rfl⟩
  | cons p rest ih =>
    intro st1 st2 h
    by_cases hc : ext.compileOk p
    · by_cases hm : ext.globMatches p pathStr
      · constructor
        · simpa [evalPatterns, hc, hm] using h
        · simp [evalPatterns, hc, hm]
      · simpa [evalPatterns, hc, hm] using ih h
    · have hc' : ext.compileOk p = false := by simpa using hc
      simpa [evalPatterns, hc'] using
        ih (logCapError_agree ext h .invalidGlob p)

/-- execute_plugin never consults the signing key: states that agree on
the key-independent fields produce equal results and stay in agreement. -/
theorem executePlugin_agree (ext : Ext) (pathStr : String)
    {st1 st2 : HostState} (h : agree st1 st2) :
    agree (executePlugin ext st1 pathStr).1 (executePlugin ext st2 pathStr).1 ∧
      (executePlugin ext st1 pathStr).2 = (executePlugin ext st2 pathStr).2 := by
  obtain ⟨hm, htr, hs, hr⟩ := h
  have hag : agree st1 st2 := ⟨hm, htr, hs, hr⟩
  by_cases hp : pathStr = ""
  · constructor
    · simpa [executePlugin, hp] using hag
    · simp [executePlugin, hp]
  · cases hfs : st2.manifest.capabilities.fs with
    | none =>
      have hfs1 : st1.manifest.capabilities.fs = none := by rw [hm, hfs]
      have hl := logCapError_agree ext hag .noFsCapability "missing fs cap"
      constructor
      · simpa [executePlugin, hp, hfs, hfs1] using hl
      · simp [executePlugin, hp, hfs, hfs1]
    | some fsCap =>
      have hfs1 : st1.manifest.capabilities.fs = some fsCap := by rw [hm, hfs]
      cases hread : fsCap.read with
      | none =>
        have hl := logCapError_agree ext hag .noReadPatterns
          "empty read patterns"
        constructor
        · simpa [executePlugin, hp, hfs, hfs1, hread] using hl
        · simp [executePlugin, hp, hfs, hfs1, hread]
      | some v =>
        by_cases hv : v.isEmpty
        · have hl := logCapError_agree ext hag .noReadPatterns
            "empty read patterns"
          constructor
          · simpa [executePlugin, hp, hfs, hfs1, hread, hv] using hl
          · simp [executePlugin, hp, hfs, hfs1, hread, hv]
        · obtain ⟨hag', ares⟩ := evalPatterns_agree ext pathStr v hag
          obtain ⟨am, atr, as', ar⟩ := hag'
          by_cases hres : (evalPatterns ext pathStr st2 v).2 = true
          · have hres1 : (evalPatterns ext pathStr st1 v).2 = true := by
              rw [ares, hres]
            constructor
            · refine ⟨?_, ?_, ?_, ?_⟩ <;>
                simp [executePlugin, hp, hfs, hfs1, hread, hv, hres, hres1,
                  am, atr, as', ar, htr, hs, hr, ares]
            · simp [executePlugin, hp, hfs, hfs1, hread, hv, hres, hres1]
          · have hres1 : ¬(evalPatterns ext pathStr st1 v).2 = true := by
              rw [ares]; exact hres
            have hl := logCapError_agree ext
              (⟨am, atr, as', ar⟩ :
                agree (evalPatterns ext pathStr st1 v).1
                  (evalPatterns ext pathStr st2 v).1)
              .globMismatch "no matching pattern"
            obtain ⟨gm, gtr, gs, gr⟩ := hl
            constructor
            · refine ⟨?_, ?_, ?_, ?_⟩ <;>
                simp [executePlugin, hp, hfs, hfs1, hread, hv, hres, hres1,
                  gm, gtr, gs, gr, am, atr, as', ar, mkCapErrorEvent]
            · simp [executePlugin, hp, hfs, hfs1, hread, hv, hres, hres1]

/-- runCalls never consults the signing key. -/
theorem runCalls_agree (ext : Ext) :
    ∀ (calls : List String) {st1 st2 : HostState}, agree st1 st2 →
      agree (runCalls ext st1 calls) (runCalls ext st2 calls) := by
  intro calls
  induction calls with
  | nil => intro st1 st2 h; exact h
  | cons p rest ih =>
    intro st1 st2 h
    simpa [runCalls] using ih (executePlugin_agree ext p h).1

/-!
Concrete instantiation of the external dependencies, used by witnesses and
counterexamples. It records these facts about the real crates: glob's
Pattern::new("[") fails (unclosed character class) while any other pattern
used below compiles; the compiled pattern "*" matches the separator-free
paths used below (such as "x"), and the compiled pattern "./a" does not
match them. The remaining fields are arbitrary executable stand-ins, which
is sound because every general theorem holds for every Ext record.
-/

/-- Concrete external-dependency record for witnesses and counterexamples. -/
def extC : Ext :=
  { compileOk := fun p => p != "["
    globMatches := fun p _ => p == "*"
    errMsg := fun _ => "invalid range pattern"
    rngFirst := fun n => n
    verifyingKey := fun k => k
    manifestJson := fun _ => ""
    sha256str := fun _ => List.replicate 32 0
    sign := fun _ msg => msg
    base64 := fun _ => ""
    traceJson := fun _ => "" }

/-- Valid manifest whose single pattern matches everything (under extC). -/
def mAllow : CapabilityManifest :=
  { plugin := "formatter-v1"
    version := "0.1"
    capabilities := { fs := some { read := some ["*"], write := none } }
    issued_by := "dev-team" }

/-- Manifest whose read patterns are a malformed glob followed by a
matching one. -/
def mBad : CapabilityManifest :=
  { plugin := "p"
    version := "1"
    capabilities := { fs := some { read := some ["[", "*"], write := none } }
    issued_by := "i" }

/-- Manifest whose read patterns are a malformed glob, a matching one, and
a trailing pattern that is never reached. -/
def mC4 : CapabilityManifest :=
  { plugin := "p"
    version := "1"
    capabilities :=
      { fs := some { read := some ["[", "*", "zzz"], write := none } }
    issued_by := "i" }

/-- Manifest whose read patterns are a malformed glob and a valid pattern
that does not match the probed path. -/
def mC6 : CapabilityManifest :=
  { plugin := "p"
    version := "1"
    capabilities :=
      { fs := some { read := some ["[", "./a"], write := none } }
    issued_by := "i" }

/-- Manifest with no filesystem capability. -/
def mNoFs : CapabilityManifest :=
  { plugin := "p"
    version := "1"
    capabilities := { fs := none }
    issued_by := "i" }

/-- Manifest with an empty plugin name. -/
def mEmptyPlugin : CapabilityManifest :=
  { plugin := ""
    version := "0.1"
    capabilities := { fs := some { read := some [], write := none } }
    issued_by := "dev" }

/-- Claim C1: for every fixed seed, every validated manifest, and every
identical sequence of execute_plugin calls, two engines constructed with
different signing keypairs produce trace event lists equal in every field
(run_id, seq, event_type, input, outcome, ts_seed); the signing key
influences only the signature produced by sign_current_trace, never the
trace content. -/
theorem c1_trace_independent_of_signing_key (ext : Ext)
    (m : CapabilityManifest) (seed k1 k2 : Nat) (calls : List String)
    (hval : m.validate ext = .ok ()) :
    (runCalls ext (HostState.new ext m seed k1) calls).trace =
      (runCalls ext (HostState.new ext m seed k2) calls).trace := by
  have hag : agree (HostState.new ext m seed k1)
      (HostState.new ext m seed k2) := ⟨rfl, rfl, rfl, rfl⟩
  exact (runCalls_agree ext calls hag).2.1

/-- Witness for C1 at a concrete validated manifest, seed, two distinct
keys, and one call. -/
theorem c1_witness :
    (runCalls extC (HostState.new extC mAllow 12345 0) ["x"]).trace =
      (runCalls extC (HostState.new extC mAllow 12345 1) ["x"]).trace :=
  c1_trace_independent_of_signing_key extC mAllow 12345 0 1 ["x"] rfl

/-- Claim C2 (divergence at the failing input): with read patterns
containing a malformed glob followed by a matching one, a single
execute_plugin call appends two events that both carry seq 1, so the seq
fields are not 1, 2, ... and the trace length (2) exceeds the highest seq
(1). The source captures seq before the pattern loop, while log_cap_error
recomputes it after the invalid_glob event was already appended. -/
theorem c2_seq_reuse_at_failing_input :
    ((runCalls extC (HostState.new extC mBad 0 0) ["x"]).trace.map
      TraceEvent.seq = [1, 1]) ∧
    (runCalls extC (HostState.new extC mBad 0 0) ["x"]).trace.length = 2 := by
  constructor <;> decide

/-- Claim C3 (counterexample): the claim that no branch appends more than
one trace event per call fails on a manifest whose read patterns contain a
syntactically malformed glob: this single call appends two events. -/
theorem c3_counterexample :
    (executePlugin extC (HostState.new extC mBad 0 0) "x").1.trace.length =
      (HostState.new extC mBad 0 0).trace.length + 2 := by
  decide

/-- Claim C3 (amended): on every terminal branch of execute_plugin from
sequence allocation onward, the call appends exactly one terminal trace
event, plus exactly one cap.error invalid_glob event (carrying the
offending pattern text) for each declared read pattern that fails to
compile among the patterns evaluated during the call: all declared
patterns when none matches, only those before the granting pattern when
one matches, none on the missing-capability and missing-patterns
branches. In particular, when every declared pattern compiles, exactly
one event is appended per call. -/
theorem c3_event_accounting (ext : Ext) (st : HostState) (pathStr : String)
    (hp : pathStr ≠ "") :
    (st.manifest.capabilities.fs = none →
      (executePlugin ext st pathStr).1.trace =
        st.trace ++
          [mkCapErrorEvent ext st .noFsCapability "missing fs cap"]) ∧
    (∀ fsCap, st.manifest.capabilities.fs = some fsCap →
      fsCap.read = none ∨ fsCap.read = some [] →
      (executePlugin ext st pathStr).1.trace =
        st.trace ++
          [mkCapErrorEvent ext st .noReadPatterns "empty read patterns"]) ∧
    (∀ fsCap pre p post, st.manifest.capabilities.fs = some fsCap →
      fsCap.read = some (pre ++ p :: post) →
      (∀ q ∈ pre, ext.compileOk q = true →
        ext.globMatches q pathStr = false) →
      ext.compileOk p = true → ext.globMatches p pathStr = true →
      ∃ evs, (executePlugin ext st pathStr).1.trace = st.trace ++ evs ∧
        evs.map projEvent =
          ((pre.filter fun q => !ext.compileOk q).map invalidGlobProj) ++
            [(EventType.capCall, pathStr, true)]) ∧
    (∀ fsCap pats, st.manifest.capabilities.fs = some fsCap →
      fsCap.read = some pats → pats ≠ [] →
      (∀ p ∈ pats, ext.compileOk p = true →
        ext.globMatches p pathStr = false) →
      ∃ evs, (executePlugin ext st pathStr).1.trace = st.trace ++ evs ∧
        evs.map projEvent =
          ((pats.filter fun p => !ext.compileOk p).map invalidGlobProj) ++
            [(EventType.capCall,
              "glob_mismatch: no matching pattern", false)]) := by
  refine ⟨?_, ?_, ?_, ?_⟩
  · intro hfs
    simp [executePlugin, hp, hfs]
  · intro fsCap hfs hread
    rcases hread with hread | hread <;>
      simp [executePlugin, hp, hfs, hread]
  · intro fsCap pre p post hfs hread hpre hc hm
    have hv : (pre ++ p :: post).isEmpty = false := by
      cases pre <;> simp
    obtain ⟨hres, evs0, htr0, hmap0⟩ :=
      evalPatterns_match ext pathStr pre st p post hpre hc hm
    refine ⟨evs0 ++
      [{ run_id := (evalPatterns ext pathStr st (pre ++ p :: post)).1.run_id
         seq := st.trace.length + 1
         event_type := .capCall
         input := pathStr
         outcome := (evalPatterns ext pathStr st (pre ++ p :: post)).2
         ts_seed := tsSeed ext st.seed (st.trace.length + 1) }], ?_, ?_⟩
    · simp [executePlugin, hp, hfs, hread, hv, hres, htr0]
    · simp [hmap0, projEvent, hres]
  · intro fsCap pats hfs hread hne hnm
    have hv : pats.isEmpty = false := by
      cases pats with
      | nil => exact absurd rfl hne
      | cons a l => simp
    obtain ⟨hres, evs0, htr0, hmap0⟩ :=
      evalPatterns_nomatch ext pathStr pats st hnm
    have hres' : ¬(evalPatterns ext pathStr st pats).2 = true := by
      simp [hres]
    refine ⟨evs0 ++ [mkCapErrorEvent ext (evalPatterns ext pathStr st pats).1
      .globMismatch "no matching pattern"], ?_, ?_⟩
    · simp [executePlugin, hp, hfs, hread, hv, hres', htr0]
    · simp [hmap0]
      rfl

/-- Witness for the amended C3 at the malformed-glob manifest: the single
call appends exactly one invalid_glob cap.error event for the
non-compiling pattern "[" plus the one terminal cap.call event. -/
theorem c3_witness :
    ∃ evs, (executePlugin extC (HostState.new extC mBad 0 0) "x").1.trace =
        (HostState.new extC mBad 0 0).trace ++ evs ∧
      evs.map projEvent =
        ((["["].filter fun q => !extC.compileOk q).map invalidGlobProj) ++
          [(EventType.capCall, "x", true)] :=
  (c3_event_accounting extC (HostState.new extC mBad 0 0) "x"
    (by decide)).2.2.1
    { read := some ["[", "*"], write := none } ["["] "*" []
    rfl rfl (by decide) (by decide) (by decide)

/-- Claim C4: execute_plugin evaluates the declared read patterns against
the path in declaration order; a pattern that fails to compile is not
fatal: a cap.error event with reason invalid_glob and the offending
pattern text is appended, the pattern is treated as non-matching, and
evaluation continues; the first syntactically valid pattern that matches
grants access immediately and the remaining patterns are not evaluated
(the conclusion is independent of post, and the appended events are
exactly the invalid_glob events of the prefix followed by the successful
cap.call event). -/
theorem c4_pattern_order_and_short_circuit (ext : Ext) (st : HostState)
    (pathStr : String) (fsCap : FsCapability) (pre post : List String)
    (p : String)
    (hp : pathStr ≠ "")
    (hfs : st.manifest.capabilities.fs = some fsCap)
    (hread : fsCap.read = some (pre ++ p :: post))
    (hpre : ∀ q ∈ pre, ext.compileOk q = true →
      ext.globMatches q pathStr = false)
    (hc : ext.compileOk p = true) (hm : ext.globMatches p pathStr = true) :
    (executePlugin ext st pathStr).2 = .ok true ∧
    ∃ evs, (executePlugin ext st pathStr).1.trace = st.trace ++ evs ∧
      evs.map projEvent =
        ((pre.filter fun q => !ext.compileOk q).map invalidGlobProj) ++
          [(EventType.capCall, pathStr, true)] := by
  have hv : (pre ++ p :: post).isEmpty = false := by
    cases pre <;> simp
  obtain ⟨hres, evs0, htr0, hmap0⟩ :=
    evalPatterns_match ext pathStr pre st p post hpre hc hm
  constructor
  · simp [executePlugin, hp, hfs, hread, hv, hres]
  · refine ⟨evs0 ++
      [{ run_id := (evalPatterns ext pathStr st (pre ++ p :: post)).1.run_id
         seq := st.trace.length + 1
         event_type := .capCall
         input := pathStr
         outcome := (evalPatterns ext pathStr st (pre ++ p :: post)).2
         ts_seed := tsSeed ext st.seed (st.trace.length + 1) }], ?_, ?_⟩
    · simp [executePlugin, hp, hfs, hread, hv, hres, htr0]
    · simp [hmap0, projEvent, hres]

/-- Witness for C4: malformed "[" logs invalid_glob and is skipped, "*"
matches and grants, the trailing pattern is never evaluated. -/
theorem c4_witness :
    (executePlugin extC (HostState.new extC mC4 0 0) "x").2 = .ok true ∧
    ∃ evs,
      (executePlugin extC (HostState.new extC mC4 0 0) "x").1.trace =
        (HostState.new extC mC4 0 0).trace ++ evs ∧
      evs.map projEvent =
        ((["["].filter fun q => !extC.compileOk q).map invalidGlobProj) ++
          [(EventType.capCall, "x", true)] :=
  c4_pattern_order_and_short_circuit extC (HostState.new extC mC4 0 0) "x"
    { read := some ["[", "*", "zzz"], write := none } ["["] ["zzz"] "*"
    (by decide) rfl rfl (by decide) (by decide) (by decide)

/-- Claim C5: the empty path fails with InvalidPath, leaving the engine
unchanged (first conjunct, which holds). A path that is not representable
as valid text, however, never reaches that error in the code: the source
applies to_string_lossy before the check, which turns invalid UTF-8 such
as the byte 0xFF into the non-empty replacement-character string, so the
call proceeds to capability enforcement (here: fails with NoFsCapability
and appends a trace event) instead of failing with InvalidPath, contrary
to the claim and to the doc comment on CapError::InvalidPath. -/
theorem c5_empty_path_vs_lossy_path :
    (∀ (ext : Ext) (st : HostState),
      executePlugin ext st "" = (st, .error .invalidPath)) ∧
    (executePlugin extC (HostState.new extC mNoFs 0 0) "�").2 =
      .error .noFsCapability ∧
    (executePlugin extC
      (HostState.new extC mNoFs 0 0) "�").1.trace.length = 1 := by
  refine ⟨fun ext st => by simp [executePlugin], rfl, rfl⟩

/-- Claim C6: when the declared read patterns are non-empty but no
compiling pattern matches, execute_plugin returns Err(GlobMismatch) and
the appended events are invalid_glob cap.error events followed by exactly
one cap.call event with outcome false and input "glob_mismatch: no
matching pattern" (in particular the input begins with
"glob_mismatch: "). -/
theorem c6_glob_mismatch_event (ext : Ext) (st : HostState)
    (pathStr : String) (fsCap : FsCapability) (pats : List String)
    (hp : pathStr ≠ "")
    (hfs : st.manifest.capabilities.fs = some fsCap)
    (hread : fsCap.read = some pats)
    (hne : pats ≠ [])
    (hnm : ∀ p ∈ pats, ext.compileOk p = true →
      ext.globMatches p pathStr = false) :
    (executePlugin ext st pathStr).2 = .error .globMismatch ∧
    ∃ evs e, (executePlugin ext st pathStr).1.trace =
        st.trace ++ evs ++ [e] ∧
      (∀ e' ∈ evs, e'.event_type = .capError) ∧
      e.event_type = .capCall ∧ e.outcome = false ∧
      e.input = "glob_mismatch: no matching pattern" ∧
      ∃ t, e.input = "glob_mismatch: " ++ t := by
  have hv : pats.isEmpty = false := by
    cases pats with
    | nil => exact absurd rfl hne
    | cons a l => simp
  obtain ⟨hres, evs0, htr0, _⟩ := evalPatterns_nomatch ext pathStr pats st hnm
  have hres' : ¬(evalPatterns ext pathStr st pats).2 = true := by
    simp [hres]
  obtain ⟨_, _, _, _, evs1, htr1, hev1⟩ := evalPatterns_state ext pathStr pats st
  constructor
  · simp [executePlugin, hp, hfs, hread, hv, hres']
  · refine ⟨evs1, mkCapErrorEvent ext (evalPatterns ext pathStr st pats).1
      .globMismatch "no matching pattern", ?_, ?_, ?_, ?_, ?_, ?_⟩
    · simp [executePlugin, hp, hfs, hread, hv, hres', htr1]
    · exact fun e' he' => (hev1 e' he').1
    · rfl
    · rfl
    · rfl
    · exact ⟨"no matching pattern", rfl⟩

/-- Witness for C6: a malformed glob plus a non-matching valid pattern
produce GlobMismatch with the described events. -/
theorem c6_witness :
    (executePlugin extC (HostState.new extC mC6 0 0) "x").2 =
      .error .globMismatch ∧
    ∃ evs e, (executePlugin extC (HostState.new extC mC6 0 0) "x").1.trace =
        (HostState.new extC mC6 0 0).trace ++ evs ++ [e] ∧
      (∀ e' ∈ evs, e'.event_type = .capError) ∧
      e.event_type = .capCall ∧ e.outcome = false ∧
      e.input = "glob_mismatch: no matching pattern" ∧
      (∃ t, e.input = "glob_mismatch: " ++ t) :=
  c6_glob_mismatch_event extC (HostState.new extC mC6 0 0) "x"
    { read := some ["[", "./a"], write := none } ["[", "./a"]
    (by decide) rfl rfl (by decide) (by decide)

theorem validateGlobs_ok_of_all (ext : Ext) :
    ∀ (pats : List String) (k : Nat),
      (∀ p ∈ pats, ext.compileOk p = true) →
      validateGlobs ext pats k = .ok () := by
  intro pats
  induction pats with
  | nil => intro k _; rfl
  | cons p rest ih =>
    intro k h
    have hc := h p (List.mem_cons_self p rest)
    simpa [validateGlobs, hc] using
      ih (k + 1) (fun q hq => h q (List.mem_cons_of_mem p hq))

theorem validateGlobs_all_of_ok (ext : Ext) :
    ∀ (pats : List String) (k : Nat),
      validateGlobs ext pats k = .ok () →
      ∀ p ∈ pats, ext.compileOk p = true := by
  intro pats
  induction pats with
  | nil => intro k _ p hp; simp at hp
  | cons p rest ih =>
    intro k h q hq
    by_cases hc : ext.compileOk p
    · rcases List.mem_cons.mp hq with rfl | hq'
      · exact hc
      · exact ih (k + 1) (by simpa [validateGlobs, hc] using h) q hq'
    · simp [validateGlobs, hc] at h

theorem validateGlobs_error_shape (ext : Ext) :
    ∀ (pats : List String) (k : Nat) (e : ManifestError),
      validateGlobs ext pats k = .error e →
      ∃ idx pat err, e = .invalidGlob idx pat err := by
  intro pats
  induction pats with
  | nil => intro k e h; simp [validateGlobs] at h
  | cons p rest ih =>
    intro k e h
    by_cases hc : ext.compileOk p
    · exact ih (k + 1) e (by simpa [validateGlobs, hc] using h)
    · refine ⟨k, p, ext.errMsg p, ?_⟩
      have h' : Except.error (ε := ManifestError) (α := Unit)
          (.invalidGlob k p (ext.errMsg p)) = .error e := by
        simpa [validateGlobs, hc] using h
      exact (Except.error.inj h').symm

theorem validateGlobs_error_spec (ext : Ext) :
    ∀ (pats : List String) (k idx : Nat) (pat err : String),
      validateGlobs ext pats k = .error (.invalidGlob idx pat err) →
      k ≤ idx ∧ pats.get? (idx - k) = some pat ∧
        ext.compileOk pat = false ∧
        ∀ j, j < idx - k →
          ∃ q, pats.get? j = some q ∧ ext.compileOk q = true := by
  intro pats
  induction pats with
  | nil => intro k idx pat err h; simp [validateGlobs] at h
  | cons p rest ih =>
    intro k idx pat err h
    by_cases hc : ext.compileOk p
    · obtain ⟨hk, hget, hbad, hgood⟩ :=
        ih (k + 1) idx pat err (by simpa [validateGlobs, hc] using h)
      refine ⟨by omega, ?_, hbad, ?_⟩
      · have : idx - k = (idx - (k + 1)) + 1 := by omega
        simpa [this] using hget
      · intro j hj
        cases j with
        | zero => exact ⟨p, rfl, hc⟩
        | succ j' =>
          have : j' < idx - (k + 1) := by omega
          simpa using hgood j' this
    · have h' : Except.error (ε := ManifestError) (α := Unit)
          (.invalidGlob k p (ext.errMsg p)) =
          .error (.invalidGlob idx pat err) := by
        simpa [validateGlobs, hc] using h
      have h'' := Except.error.inj h'
      have hidx : idx = k := by cases h''; rfl
      have hpat : pat = p := by cases h''; rfl
      have hcomp : ext.compileOk pat = false := by
        rw [hpat]; simpa using hc
      subst hidx hpat
      exact ⟨le_refl _, by simp, hcomp, fun j hj => absurd hj (by omega)⟩

/-- Claim C7: validate returns InvalidPlugin, InvalidVersion, or
InvalidIssuer exactly when the corresponding string field is empty (under
the short-circuit order plugin, version, issuer), returns InvalidGlob
carrying the index and text of the first declared read pattern that fails
to compile, and returns Ok exactly when every rule passes. -/
theorem c7_validate_characterization (ext : Ext) (m : CapabilityManifest) :
    (m.validate ext = .error .invalidPlugin ↔ m.plugin = "") ∧
    (m.validate ext = .error .invalidVersion ↔
      m.plugin ≠ "" ∧ m.version = "") ∧
    (m.validate ext = .error .invalidIssuer ↔
      m.plugin ≠ "" ∧ m.version ≠ "" ∧ m.issued_by = "") ∧
    (∀ idx pat err, m.validate ext = .error (.invalidGlob idx pat err) →
      (declaredReadPatterns m).get? idx = some pat ∧
      ext.compileOk pat = false ∧
      ∀ j, j < idx → ∃ q, (declaredReadPatterns m).get? j = some q ∧
        ext.compileOk q = true) ∧
    (m.validate ext = .ok () ↔
      m.plugin ≠ "" ∧ m.version ≠ "" ∧ m.issued_by ≠ "" ∧
      ∀ p ∈ declaredReadPatterns m, ext.compileOk p = true) := by
  by_cases h1 : m.plugin = ""
  · refine ⟨?_, ?_, ?_, ?_, ?_⟩ <;> simp [CapabilityManifest.validate, h1]
  · by_cases h2 : m.version = ""
    · refine ⟨?_, ?_, ?_, ?_, ?_⟩ <;>
        simp [CapabilityManifest.validate, h1, h2]
    · by_cases h3 : m.issued_by = ""
      · refine ⟨?_, ?_, ?_, ?_, ?_⟩ <;>
          simp [CapabilityManifest.validate, h1, h2, h3]
      · cases hfs : m.capabilities.fs with
        | none =>
          refine ⟨?_, ?_, ?_, ?_, ?_⟩ <;>
            simp [CapabilityManifest.validate, declaredReadPatterns,
              h1, h2, h3, hfs]
        | some fsCap =>
          cases hread : fsCap.read with
          | none =>
            refine ⟨?_, ?_, ?_, ?_, ?_⟩ <;>
              simp [CapabilityManifest.validate, declaredReadPatterns,
                h1, h2, h3, hfs, hread]
          | some pats =>
            have hval : m.validate ext = validateGlobs ext pats 0 := by
              simp [CapabilityManifest.validate, h1, h2, h3, hfs, hread]
            have hdecl : declaredReadPatterns m = pats := by
              simp [declaredReadPatterns, hfs, hread]
            refine ⟨?_, ?_, ?_, ?_, ?_⟩
            · rw [hval]
              constructor
              · intro h
                obtain ⟨_, _, _, he⟩ := validateGlobs_error_shape ext pats 0 _ h
                simp at he
              · intro h; exact absurd h h1
            · rw [hval]
              constructor
              · intro h
                obtain ⟨_, _, _, he⟩ := validateGlobs_error_shape ext pats 0 _ h
                simp at he
              · intro h; exact absurd h.2 h2
            · rw [hval]
              constructor
              · intro h
                obtain ⟨_, _, _, he⟩ := validateGlobs_error_shape ext pats 0 _ h
                simp at he
              · intro h; exact absurd h.2.2 h3
            · intro idx pat err h
              rw [hval] at h
              obtain ⟨_, hget, hbad, hgood⟩ :=
                validateGlobs_error_spec ext pats 0 idx pat err h
              rw [hdecl]
              refine ⟨by simpa using hget, hbad, ?_⟩
              intro j hj
              exact hgood j (by omega)
            · rw [hval, hdecl]
              constructor
              · intro h
                exact ⟨h1, h2, h3, validateGlobs_all_of_ok ext pats 0 h⟩
              · intro h
                exact validateGlobs_ok_of_all ext pats 0 h.2.2.2

/-- Witness for C7: an empty plugin name yields InvalidPlugin, and the
all-valid manifest validates. -/
theorem c7_witness :
    mEmptyPlugin.validate extC = .error .invalidPlugin ∧
    mAllow.validate extC = .ok () :=
  ⟨(c7_validate_characterization extC mEmptyPlugin).1.mpr (by decide),
    (c7_validate_characterization extC mAllow).2.2.2.2.mpr
      ⟨by decide, by decide, by decide, by decide⟩⟩

theorem traceEventFromJson_toJson (e : TraceEvent) :
    traceEventFromJson (traceEventToJson e) = some e := by
  cases e with
  | mk rid sq et inp oc ts => cases et <;> rfl

/-- Claim C8: for every trace (in particular of length 0, 1, or N), saving
it and reloading it yields a sequence of events equal field-for-field to
the in-memory trace at save time. The file layer is the JSON document tree
(serde_json's renderer and parser are mutually inverse on rendered
documents). -/
theorem c8_save_load_roundtrip (trace : List TraceEvent) :
    loadTraceDoc (saveTraceDoc trace) = some trace := by
  induction trace with
  | nil => rfl
  | cons e es ih =>
    have ih' : decodeEvents (es.map traceEventToJson) = some es := ih
    show decodeEvents ((e :: es).map traceEventToJson) = some (e :: es)
    simp [decodeEvents, traceEventFromJson_toJson, ih']

/-- Claim C9: every trace event's ts_seed equals the pure function tsSeed
of the engine seed and the event's own seq field, for every external
record, manifest, seed, key, and call list (so the pseudo-timestamp
depends on nothing else); moreover the mixing function feeding the RNG is
injective in seq for every odd seed, so distinct sequence numbers reach
the RNG with distinct states (the further step from distinct RNG states to
distinct draws is the probabilistic part of the claim and holds for no
fixed generator unconditionally). -/
theorem c9_ts_seed_pure_function :
    (∀ (ext : Ext) (m : CapabilityManifest) (seed k : Nat)
      (calls : List String),
      ∀ e ∈ (runCalls ext (HostState.new ext m seed k) calls).trace,
        e.ts_seed = tsSeed ext seed e.seq) ∧
    (∀ seed s1 s2 : Nat, seed % 2 = 1 →
      PRIME_MULTIPLIER + s1 < U64MOD → PRIME_MULTIPLIER + s2 < U64MOD →
      s1 ≠ s2 → mixSeed seed s1 ≠ mixSeed seed s2) := by
  constructor
  · intro ext m seed k calls e he
    obtain ⟨_, _, _, _, evs, htr, hev⟩ :=
      runCalls_state ext calls (HostState.new ext m seed k)
    rw [htr] at he
    have he' : e ∈ evs := by simpa [HostState.new] using he
    exact (hev e he').2
  · intro seed s1 s2 hodd h1 h2 hne heq
    unfold mixSeed at heq
    rw [Nat.mod_eq_of_lt h1, Nat.mod_eq_of_lt h2] at heq
    have hco : Nat.gcd U64MOD seed = 1 := by
      have hc2 : Nat.Coprime seed 2 :=
        Nat.coprime_two_right.mpr (Nat.odd_iff.mpr hodd)
      have : Nat.Coprime seed U64MOD := hc2.pow_right 64
      exact (Nat.coprime_comm.mp this)
    have hmod : (PRIME_MULTIPLIER + s1) ≡ (PRIME_MULTIPLIER + s2)
        [MOD U64MOD] :=
      Nat.ModEq.cancel_left_of_coprime hco heq
    have : (PRIME_MULTIPLIER + s1) % U64MOD =
        (PRIME_MULTIPLIER + s2) % U64MOD := hmod
    rw [Nat.mod_eq_of_lt h1, Nat.mod_eq_of_lt h2] at this
    omega

/-- Witness for C9: seeds mixed from the odd engine seed 1 differ for
sequence numbers 0 and 1. -/
theorem c9_witness : mixSeed 1 0 ≠ mixSeed 1 1 :=
  c9_ts_seed_pure_function.2 1 0 1 rfl (by decide) (by decide) (by decide)

theorem hexLower_data_length (bs : List Nat) :
    (hexLower bs).data.length = 2 * bs.length := by
  induction bs with
  | nil => rfl
  | cons b rest ih =>
    simp [hexLower, byteHex] at ih ⊢
    omega

theorem hexDigit_ascii :
    ∀ n, n < 16 →
      (48 ≤ (hexDigit n).toNat ∧ (hexDigit n).toNat ≤ 57) ∨
      (97 ≤ (hexDigit n).toNat ∧ (hexDigit n).toNat ≤ 102) := by
  decide

theorem hexLower_bytes (bs : List Nat) :
    ∀ b ∈ asciiBytes (hexLower bs),
      (48 ≤ b ∧ b ≤ 57) ∨ (97 ≤ b ∧ b ≤ 102) := by
  intro b hb
  simp [asciiBytes, hexLower, byteHex] at hb
  obtain ⟨a, _, hcase⟩ := hb
  rcases hcase with rfl | rfl
  · exact hexDigit_ascii _ (Nat.mod_lt _ (by omega))
  · exact hexDigit_ascii _ (Nat.mod_lt _ (by omega))

/-- Claim C10: the signature inside every SignedTrace returned by
sign_current_trace is produced over the lowercase hexadecimal ASCII string
of the SHA-256 digest of trace_json: the signing primitive receives the
64-byte ASCII message consisting of lowercase hex digits (hence neither
the 32 raw digest bytes nor trace_json itself), and the signature bytes
are base64-encoded into the exported field. -/
theorem c10_signature_over_hex_digest (ext : Ext) (st : HostState)
    (hsha : ∀ s, (ext.sha256str s).length = 32) :
    signCurrentTrace ext st =
      { run_id := st.run_id
        manifest_hash := st.manifest_hash
        trace_json := ext.traceJson st.trace
        signature := ext.base64 (ext.sign st.keypair
          (asciiBytes (hexLower (ext.sha256str (ext.traceJson st.trace))))) } ∧
    (asciiBytes (hexLower (ext.sha256str (ext.traceJson st.trace)))).length
      = 64 ∧
    ∀ b ∈ asciiBytes (hexLower (ext.sha256str (ext.traceJson st.trace))),
      (48 ≤ b ∧ b ≤ 57) ∨ (97 ≤ b ∧ b ≤ 102) := by
  refine ⟨rfl, ?_, hexLower_bytes _⟩
  have hlen := hexLower_data_length (ext.sha256str (ext.traceJson st.trace))
  simp [asciiBytes, hlen, hsha]

/-- Witness for C10 at the concrete instantiation (whose digest stand-in
has length 32). -/
theorem c10_witness :
    signCurrentTrace extC (HostState.new extC mAllow 0 0) =
      { run_id := (HostState.new extC mAllow 0 0).run_id
        manifest_hash := (HostState.new extC mAllow 0 0).manifest_hash
        trace_json := extC.traceJson (HostState.new extC mAllow 0 0).trace
        signature := extC.base64 (extC.sign
          (HostState.new extC mAllow 0 0).keypair
          (asciiBytes (hexLower (extC.sha256str
            (extC.traceJson (HostState.new extC mAllow 0 0).trace))))) } ∧
    (asciiBytes (hexLower (extC.sha256str
      (extC.traceJson (HostState.new extC mAllow 0 0).trace)))).length = 64 ∧
    ∀ b ∈ asciiBytes (hexLower (extC.sha256str
      (extC.traceJson (HostState.new extC mAllow 0 0).trace))),
      (48 ≤ b ∧ b ≤ 57) ∨ (97 ≤ b ∧ b ≤ 102) :=
  c10_signature_over_hex_digest extC (HostState.new extC mAllow 0 0)
    (fun s => by simp [extC])

end Captra
